import Mathlib

/-
Verification of the browser discovery and selection core of Quick_Tabs.

The definitions below are a shallow embedding of src/commands/detect.rs and
src/src/main.rs.  Filesystem paths are modelled as strings, filesystem and
subprocess effects as explicit function parameters in environment structures,
and the serde_json serialization layer as an inductive Json value type
(to_string_pretty followed by from_str is modelled as the identity on Json
values, which is exactly the guarantee the derive implementations provide for
the record types involved).
-/

set_option autoImplicit false

namespace QuickTabs

/-- Filesystem path, modelled as a string (PathBuf in the source). -/
abbrev FsPath := String

/-- Browser record from commands/detect.rs: name, path and optional version. -/
structure Browser where
  name : String
  path : FsPath
  version : Option String
deriving DecidableEq, Repr

/-- Config record from commands/detect.rs, wrapping the saved browser. -/
structure Config where
  browser : Browser
deriving DecidableEq, Repr

/-- Dedup loop of detect_all_browsers (detect.rs lines 89 to 93): a HashSet of
paths already seen filters the concatenated probe results, keeping a browser
exactly when its path was not inserted before.  The HashSet is modelled as the
list of paths already kept. -/
def dedupByPathAux (seen : List FsPath) : List Browser → List Browser
  | [] => []
  | b :: rest =>
    if b.path ∈ seen then dedupByPathAux seen rest
    else b :: dedupByPathAux (b.path :: seen) rest

/-- Deduplication by path with an initially empty seen set, as in
detect_all_browsers. -/
def dedupByPath (found : List Browser) : List Browser :=
  dedupByPathAux [] found

/-- Merge step of detect_all_browsers: the PathProbe results (the loop over
known_browsers) are extended with the RegistryProbe results and the
concatenation is deduplicated by path. -/
def detect_all_browsers (pathProbe registryProbe : List Browser) : List Browser :=
  dedupByPath (pathProbe ++ registryProbe)

theorem mem_dedupByPathAux (x : Browser) :
    ∀ (l : List Browser) (seen : List FsPath),
      x ∈ dedupByPathAux seen l ↔
        (x.path ∉ seen ∧ l.find? (fun y => y.path == x.path) = some x) := by
  intro l
  induction l with
  | nil => intro seen; simp [dedupByPathAux]
  | cons b rest ih =>
    intro seen
    by_cases hb : b.path ∈ seen
    · rw [dedupByPathAux, if_pos hb, ih]
      constructor
      · rintro ⟨hx, hfind⟩
        refine ⟨hx, ?_⟩
        rw [List.find?_cons_of_neg]
        · exact hfind
        · simp only [beq_iff_eq]
          intro heq
          exact hx (heq ▸ hb)
      · rintro ⟨hx, hfind⟩
        refine ⟨hx, ?_⟩
        rw [List.find?_cons_of_neg] at hfind
        · exact hfind
        · simp only [beq_iff_eq]
          intro heq
          exact hx (heq ▸ hb)
    · rw [dedupByPathAux, if_neg hb]
      simp only [List.mem_cons, ih]
      constructor
      · rintro (rfl | ⟨hx, hfind⟩)
        · exact ⟨hb, by rw [List.find?_cons_of_pos] ; simp⟩
        · simp only [List.mem_cons, not_or] at hx
          refine ⟨hx.2, ?_⟩
          rw [List.find?_cons_of_neg]
          · exact hfind
          · simp only [beq_iff_eq]
            intro heq
            exact hx.1 heq.symm
      · rintro ⟨hx, hfind⟩
        by_cases hbx : b.path = x.path
        · left
          rw [List.find?_cons_of_pos _ (by simp [hbx])] at hfind
          exact (Option.some.injEq _ _ ▸ hfind).symm
        · right
          rw [List.find?_cons_of_neg _ (by simp [hbx])] at hfind
          refine ⟨?_, hfind⟩
          simp only [List.mem_cons, not_or]
          exact ⟨fun h => hbx h.symm, hx⟩

theorem pairwise_dedupByPathAux :
    ∀ (l : List Browser) (seen : List FsPath),
      (dedupByPathAux seen l).Pairwise (fun a b => a.path ≠ b.path) := by
  intro l
  induction l with
  | nil => intro seen; simp [dedupByPathAux]
  | cons b rest ih =>
    intro seen
    by_cases hb : b.path ∈ seen
    · rw [dedupByPathAux, if_pos hb]; exact ih seen
    · rw [dedupByPathAux, if_neg hb]
      refine List.Pairwise.cons ?_ (ih (b.path :: seen))
      intro x hx
      have := (mem_dedupByPathAux x rest (b.path :: seen)).mp hx
      have hxp := this.1
      simp only [List.mem_cons, not_or] at hxp
      exact fun h => hxp.1 h.symm

theorem sublist_dedupByPathAux :
    ∀ (l : List Browser) (seen : List FsPath),
      List.Sublist (dedupByPathAux seen l) l := by
  intro l
  induction l with
  | nil => intro seen; simp [dedupByPathAux]
  | cons b rest ih =>
    intro seen
    by_cases hb : b.path ∈ seen
    · rw [dedupByPathAux, if_pos hb]
      exact (ih seen).cons b
    · rw [dedupByPathAux, if_neg hb]
      exact (ih (b.path :: seen)).cons₂ b

/-- C1: the merged detection result keeps only the first occurrence of each
distinct browser path in concatenation order (PathProbe results first, then
RegistryProbe results), dropping every later Browser with an equal path
regardless of its name or version, so no two entries of the returned list
share a path.  The first conjunct is the no-shared-path invariant, the second
preserves concatenation order, and the third says that the entries are exactly
the first occurrences of their paths in the concatenated probe output. -/
theorem C1_dedup_first_occurrence (pathProbe registryProbe : List Browser) :
    (detect_all_browsers pathProbe registryProbe).Pairwise
        (fun a b => a.path ≠ b.path) ∧
    List.Sublist (detect_all_browsers pathProbe registryProbe)
        (pathProbe ++ registryProbe) ∧
    (∀ b, b ∈ detect_all_browsers pathProbe registryProbe ↔
        (pathProbe ++ registryProbe).find? (fun y => y.path == b.path) = some b) := by
  refine ⟨pairwise_dedupByPathAux _ [], sublist_dedupByPathAux _ [], ?_⟩
  intro b
  rw [detect_all_browsers, dedupByPath, mem_dedupByPathAux]
  simp

/-- Sample browsers used to instantiate the theorems on concrete inputs. -/
def brA : Browser := { name := "Google Chrome", path := "/usr/bin/chrome", version := some "1.0" }

def brAdup : Browser := { name := "Chromium", path := "/usr/bin/chrome", version := some "2.0" }

def brB : Browser := { name := "Mozilla Firefox", path := "/usr/bin/firefox", version := none }

def brC : Browser := { name := "Brave", path := "/usr/bin/brave", version := none }

/-- Witness for C1 at a concrete detection run: a PathProbe duplicate of the
same path is dropped and the result has pairwise distinct paths. -/
theorem C1_dedup_first_occurrence_witness :
    (detect_all_browsers [brA, brAdup] [brB]).Pairwise (fun a b => a.path ≠ b.path) :=
  (C1_dedup_first_occurrence [brA, brAdup] [brB]).1

/-- Captured output of a spawned process: exit status and standard output,
as produced by Command::output in get_version. -/
structure ProcessOutput where
  exitCode : Int
  stdout : String
deriving DecidableEq, Repr

/-- Model of the str::lines().next() call in get_version: none on the empty
string, otherwise the prefix of the string up to the first line feed, with a
trailing carriage return stripped when that line feed exists. -/
def rustLinesNext (s : String) : Option String :=
  match s.data with
  | [] => none
  | cs =>
    let pre := cs.takeWhile (fun c => c ≠ '\x0a')
    if pre.length < cs.length ∧ pre.getLast? = some '\x0d' then
      some (String.mk pre.dropLast)
    else
      some (String.mk pre)

/-- Model of str::trim: drop whitespace characters from both ends.  Defined
over the character list so that it evaluates by kernel reduction. -/
def rustTrim (s : String) : String :=
  String.mk (((s.data.dropWhile Char.isWhitespace).reverse.dropWhile
    Char.isWhitespace).reverse)

/-- get_version (detect.rs lines 184 to 195).  The spawn result of the
subprocess is passed explicitly: none models an Err from Command::output (the
ok() call), some carries the exit status and captured stdout.  On a spawn
success the code takes lines().next(), falls back to the whole string when
that is none, trims and wraps in Some; the exit status is never inspected. -/
def get_version (spawnResult : Option ProcessOutput) : Option String :=
  spawnResult.bind (fun output =>
    let version_str := output.stdout
    some (rustTrim ((rustLinesNext version_str).getD version_str)))

/-- C2 counterexample: the claim says a non-zero exit or empty output yields
the absent version.  The code ignores the exit status and wraps any captured
stdout, so a process exiting 1 with output v7 yields some v7, and a process
exiting 0 with empty output yields some of the empty string; neither is
none. -/
theorem C2_counterexample :
    get_version (some { exitCode := 1, stdout := "v7" }) = some "v7" ∧
    ¬ get_version (some { exitCode := 1, stdout := "v7" }) = none ∧
    get_version (some { exitCode := 0, stdout := "" }) = some "" ∧
    ¬ get_version (some { exitCode := 0, stdout := "" }) = none := by
  refine ⟨rfl, by decide, rfl, by decide⟩

/-- C2 amended: get_version returns the absent value exactly when the spawn
itself fails; on every spawn success it returns some string, it never inspects
the exit status (the result depends only on stdout), it yields some empty
string on empty output, and on multi-line output it returns the first line
trimmed of surrounding whitespace.  It never propagates an error. -/
theorem C2_version_first_line :
    (get_version none = none) ∧
    (∀ o : ProcessOutput, ∃ v, get_version (some o) = some v) ∧
    (∀ (c c' : Int) (s : String),
        get_version (some { exitCode := c, stdout := s }) =
        get_version (some { exitCode := c', stdout := s })) ∧
    (∀ c : Int, get_version (some { exitCode := c, stdout := "" }) = some "") ∧
    (get_version (some { exitCode := 1, stdout := "  Chromium 120.0 \x0aextra" }) =
        some "Chromium 120.0") := by
  refine ⟨rfl, fun o => ⟨_, rfl⟩, fun c c' s => rfl, fun c => rfl, by decide⟩

/-- Witness for C2 amended at concrete inputs. -/
theorem C2_version_first_line_witness :
    get_version (some { exitCode := (7 : Int), stdout := "" }) = some "" :=
  C2_version_first_line.2.2.2.1 7

/-- Probe environment for detect_browser (detect.rs lines 108 to 133): the
which lookup on the executable search path, filesystem existence, the version
subprocess, the fixed common_paths table, and the canonicalization the OS
would provide (fs::canonicalize, used by find_browsers.rs but not by
commands/detect.rs). -/
structure ProbeEnv where
  whichResult : String → Option FsPath
  pathExists : FsPath → Bool
  versionOf : FsPath → Option String
  commonPathsFor : String → List FsPath
  canonicalize : FsPath → FsPath

/-- detect_browser (detect.rs lines 108 to 133): a PATH hit via which is
recorded first, then every existing common-path candidate whose path is not
already recorded for this logical browser is appended.  Paths are compared
verbatim; canonicalize is never called. -/
def detect_browser (env : ProbeEnv) (name : String) (exec_name : String) : List Browser :=
  let found : List Browser :=
    match env.whichResult exec_name with
    | some path => [{ name := name, path := path, version := env.versionOf path }]
    | none => []
  (env.commonPathsFor exec_name).foldl
    (fun found candidate =>
      if env.pathExists candidate && !(found.any (fun b => b.path == candidate)) then
        found ++ [{ name := name, path := candidate, version := env.versionOf candidate }]
      else found)
    found

/-- Full pipeline of detect_all_browsers over an environment: the loop over
the known-browser table feeds detect_browser, the registry probe results are
appended (empty off Windows), and the concatenation is deduplicated by
path. -/
def detect_all_from_env (env : ProbeEnv) (known : List (String × String))
    (registry : List Browser) : List Browser :=
  detect_all_browsers (known.flatMap (fun kb => detect_browser env kb.1 kb.2)) registry

/-- Environment refuting C3: the PATH hit resolves the chromium executable at
the snap path, the install-directory table also holds an existing chromium at
/usr/bin, and the two spellings canonicalize to the same file (the snap path
is a symlink). -/
def envC3 : ProbeEnv :=
  { whichResult := fun e => if e = "chromium" then some "/snap/bin/chromium" else none,
    pathExists := fun p => p = "/snap/bin/chromium" || p = "/usr/bin/chromium",
    versionOf := fun _ => none,
    commonPathsFor := fun e =>
      if e = "chromium" then
        ["/usr/bin/chromium", "/usr/local/bin/chromium", "/snap/bin/chromium",
         "/opt/chromium/chromium"]
      else [],
    canonicalize := fun p => if p = "/snap/bin/chromium" then "/usr/bin/chromium" else p }

/-- C3 counterexample: two probes surface the same executable under spellings
that canonicalize to the same path, yet the detection result keeps both
entries, because commands/detect.rs compares paths verbatim and never
canonicalizes.  The claim would force exactly one entry for that canonical
path; the code produces two. -/
theorem C3_counterexample :
    ¬ (((detect_all_from_env envC3 [("Chromium", "chromium")] []).filter
        (fun b => envC3.canonicalize b.path == "/usr/bin/chromium")).length = 1) := by
  have h : ((detect_all_from_env envC3 [("Chromium", "chromium")] []).filter
      (fun b => envC3.canonicalize b.path == "/usr/bin/chromium")).length = 2 := by rfl
  omega

theorem filter_path_eq_nil {t : List Browser} {p : FsPath}
    (h : ∀ a ∈ t, a.path ≠ p) : t.filter (fun b => b.path == p) = [] := by
  induction t with
  | nil => rfl
  | cons a t ih =>
    rw [List.filter_cons_of_neg]
    · exact ih (fun x hx => h x (List.mem_cons_of_mem a hx))
    · simp only [beq_iff_eq]
      exact h a (List.mem_cons_self a t)

theorem filter_path_length_one {l : List Browser} {b0 : Browser} {p : FsPath}
    (hpw : l.Pairwise (fun a b => a.path ≠ b.path)) (hmem : b0 ∈ l)
    (hbp : b0.path = p) :
    (l.filter (fun b => b.path == p)).length = 1 := by
  induction l with
  | nil => simp at hmem
  | cons a t ih =>
    rw [List.pairwise_cons] at hpw
    rcases List.mem_cons.mp hmem with rfl | hmem'
    · rw [List.filter_cons_of_pos (by simp [hbp])]
      rw [filter_path_eq_nil (fun x hx hxp => hpw.1 x hx (hbp.trans hxp.symm))]
      rfl
    · rw [List.filter_cons_of_neg]
      · exact ih hpw.2 hmem'
      · simp only [beq_iff_eq]
        exact fun hh => hpw.1 b0 hmem' (hh.trans hbp.symm)

theorem find?_of_path_mem {l : List Browser} {p : FsPath}
    (h : p ∈ l.map (fun b => b.path)) :
    ∃ b0, l.find? (fun y => y.path == p) = some b0 ∧ b0.path = p := by
  induction l with
  | nil => simp at h
  | cons a t ih =>
    by_cases ha : a.path = p
    · exact ⟨a, by rw [List.find?_cons_of_pos _ (by simp [ha])], ha⟩
    · have h' : p ∈ t.map (fun b => b.path) := by
        rcases List.mem_map.mp h with ⟨x, hx, hxp⟩
        rcases List.mem_cons.mp hx with rfl | hxt
        · exact absurd hxp ha
        · exact List.mem_map.mpr ⟨x, hxt, hxp⟩
      rcases ih h' with ⟨b0, hfind, hbp⟩
      exact ⟨b0, by rw [List.find?_cons_of_neg _ (by simp [ha])]; exact hfind, hbp⟩

/-- C3 amended: browser dedup identity in commands/detect.rs is the path
exactly as the probe surfaced it, compared verbatim, never the name or the
version; canonicalization is not applied.  Whenever any probe surfaces an
executable under some path spelling, the detection result contains exactly one
entry whose path is that exact spelling; spellings that differ but would
canonicalize to the same file are kept as separate entries (see the
counterexample). -/
theorem C3_dedup_identity_is_raw_path (env : ProbeEnv)
    (known : List (String × String)) (registry : List Browser) (p : FsPath)
    (h : p ∈ ((known.flatMap (fun kb => detect_browser env kb.1 kb.2)) ++
        registry).map (fun b => b.path)) :
    ((detect_all_from_env env known registry).filter
        (fun b => b.path == p)).length = 1 := by
  rcases find?_of_path_mem h with ⟨b0, hfind, hbp⟩
  have hmem : b0 ∈ detect_all_from_env env known registry := by
    rw [detect_all_from_env, detect_all_browsers, dedupByPath, mem_dedupByPathAux]
    refine ⟨by simp, ?_⟩
    rw [hbp]
    exact hfind
  exact filter_path_length_one (pairwise_dedupByPathAux _ []) hmem hbp

/-- Environment for the C3 witness: the PATH hit and the install-directory
table surface the chrome executable under the same spelling. -/
def envC3w : ProbeEnv :=
  { whichResult := fun e => if e = "chrome" then some "/usr/bin/chrome" else none,
    pathExists := fun p => p = "/usr/bin/chrome",
    versionOf := fun _ => none,
    commonPathsFor := fun e =>
      if e = "chrome" then ["/usr/bin/chrome", "/opt/chrome/chrome"] else [],
    canonicalize := fun p => p }

/-- Witness for C3 amended: with both probes surfacing /usr/bin/chrome under
the identical spelling, the detection result has exactly one entry with that
path. -/
theorem C3_dedup_identity_is_raw_path_witness :
    ((detect_all_from_env envC3w [("Google Chrome", "chrome")] []).filter
        (fun b => b.path == "/usr/bin/chrome")).length = 1 :=
  C3_dedup_identity_is_raw_path envC3w [("Google Chrome", "chrome")] []
    "/usr/bin/chrome" (by decide)

/-- ASCII lowercase conversion of one character, as used by
eq_ignore_ascii_case. -/
def asciiLowercase (c : Char) : Char :=
  if 65 ≤ c.toNat ∧ c.toNat ≤ 90 then Char.ofNat (c.toNat + 32) else c

/-- Model of str::eq_ignore_ascii_case: both strings agree after mapping every
character to its ASCII lowercase form. -/
def eqIgnoreAsciiCase (a b : String) : Bool :=
  a.data.map asciiLowercase == b.data.map asciiLowercase

/-- Model of str::parse for usize: an optional leading plus sign followed by
at least one ASCII digit, rejecting anything else and values that overflow the
64-bit range. -/
def parseUsize (s : String) : Option Nat :=
  let cs :=
    match s.data with
    | '+' :: rest => rest
    | other => other
  if cs.isEmpty then none
  else if cs.all Char.isDigit then
    let n := cs.foldl (fun acc c => acc * 10 + (c.toNat - 48)) 0
    if n < 2 ^ 64 then some n else none
  else none

/-- Route taken by the selection code in run and
choose_browser_interactively: auto is the prompt-free single-candidate
return, chosen is an accepted 1-based index, manual is the manual-entry flow
(the flag records whether the invalid-choice diagnostic was printed first),
and readError is the immediate give-up when reading stdin fails. -/
inductive SelectionRoute where
  | auto (b : Browser)
  | chosen (b : Browser)
  | manual (diagnostic : Bool)
  | readError
deriving DecidableEq, Repr

/-- choose_browser_interactively (detect.rs lines 234 to 261).  The one line
read from stdin is passed explicitly; none models a read_line error.  The
trimmed input is checked case-insensitively against the manual-entry marker m,
then parsed as a 1-based index; out-of-range or unparseable input prints the
invalid-choice diagnostic and falls back to manual entry. -/
def choose_browser_interactively (found : List Browser) (input : Option String) :
    SelectionRoute :=
  match input with
  | none => SelectionRoute.readError
  | some line =>
    let choice := rustTrim line
    if eqIgnoreAsciiCase choice "m" then SelectionRoute.manual false
    else
      match parseUsize choice with
      | some index =>
        if h : 0 < index ∧ index ≤ found.length then
          SelectionRoute.chosen (found.get ⟨index - 1, by omega⟩)
        else SelectionRoute.manual true
      | none => SelectionRoute.manual true

/-- Candidate-count dispatch of run (detect.rs lines 42 to 53): zero
candidates go to manual entry, one candidate is returned without prompting,
two or more go to the interactive choice. -/
def selectionRoute (detected : List Browser) (input : Option String) :
    SelectionRoute :=
  match detected with
  | [] => SelectionRoute.manual false
  | [b] => SelectionRoute.auto b
  | a :: b :: t => choose_browser_interactively (a :: b :: t) input

/-- manual_select (detect.rs lines 263 to 286): read one line (none models a
read error), trim it, and wrap it as the Custom Browser when the path exists
on disk. -/
def manual_select (input : Option String) (pathExists : FsPath → Bool)
    (versionOf : FsPath → Option String) : Option Browser :=
  match input with
  | none => none
  | some line =>
    let path := rustTrim line
    if pathExists path then
      some { name := "Custom Browser", path := path, version := versionOf path }
    else none

/-- Final selected browser of a route: the manual routes run manual_select,
the read-error route yields no browser selected. -/
def routeResult (r : SelectionRoute) (manualInput : Option String)
    (pathExists : FsPath → Bool) (versionOf : FsPath → Option String) :
    Option Browser :=
  match r with
  | SelectionRoute.auto b => some b
  | SelectionRoute.chosen b => some b
  | SelectionRoute.manual _ => manual_select manualInput pathExists versionOf
  | SelectionRoute.readError => none

/-- C4: the selection outcome is determined by the candidate count.  Zero
candidates route to manual entry for every input and never to an indexed
choice; exactly one candidate is returned without the input being read; with
two or more candidates the trimmed input line selects the k-th candidate when
it parses as a 1-based index k within range, routes to manual entry when it
equals the manual-entry marker case-insensitively, and otherwise routes to
manual entry after the invalid-choice diagnostic. -/
theorem C4_selection_policy :
    (∀ input, selectionRoute [] input = SelectionRoute.manual false ∧
        ∀ b, selectionRoute [] input ≠ SelectionRoute.chosen b) ∧
    (∀ b input, selectionRoute [b] input = SelectionRoute.auto b) ∧
    (∀ (l : List Browser) (line : String) (k : Nat), 2 ≤ l.length →
        eqIgnoreAsciiCase (rustTrim line) "m" = false →
        parseUsize (rustTrim line) = some k →
        ∀ (h1 : 1 ≤ k) (h2 : k ≤ l.length),
        selectionRoute l (some line) =
          SelectionRoute.chosen (l.get ⟨k - 1, by omega⟩)) ∧
    (∀ (l : List Browser) (line : String), 2 ≤ l.length →
        eqIgnoreAsciiCase (rustTrim line) "m" = true →
        selectionRoute l (some line) = SelectionRoute.manual false) ∧
    (∀ (l : List Browser) (line : String), 2 ≤ l.length →
        eqIgnoreAsciiCase (rustTrim line) "m" = false →
        (parseUsize (rustTrim line) = none ∨
          ∃ k, parseUsize (rustTrim line) = some k ∧ (k = 0 ∨ l.length < k)) →
        selectionRoute l (some line) = SelectionRoute.manual true) := by
  refine ⟨?_, ?_, ?_, ?_, ?_⟩
  · intro input
    exact ⟨rfl, fun b h => by simp [selectionRoute] at h⟩
  · intro b input
    rfl
  · intro l line k hlen hm hk h1 h2
    obtain ⟨a, b, t, rfl⟩ : ∃ a b t, l = a :: b :: t := by
      match l, hlen with
      | a :: b :: t, _ => exact ⟨a, b, t, rfl⟩
    simp only [selectionRoute, choose_browser_interactively]
    rw [if_neg (by simp [hm])]
    simp only [hk]
    rw [dif_pos ⟨h1, h2⟩]
  · intro l line hlen hm
    obtain ⟨a, b, t, rfl⟩ : ∃ a b t, l = a :: b :: t := by
      match l, hlen with
      | a :: b :: t, _ => exact ⟨a, b, t, rfl⟩
    simp only [selectionRoute, choose_browser_interactively]
    rw [if_pos (by simp [hm])]
  · intro l line hlen hm hbad
    obtain ⟨a, b, t, rfl⟩ : ∃ a b t, l = a :: b :: t := by
      match l, hlen with
      | a :: b :: t, _ => exact ⟨a, b, t, rfl⟩
    simp only [selectionRoute, choose_browser_interactively]
    rw [if_neg (by simp [hm])]
    rcases hbad with hnone | ⟨k, hk, hout⟩
    · rw [hnone]
    · simp only [hk]
      rw [dif_neg (by omega)]

/-- Witness for C4 at a concrete choice: with three candidates and the input
line 3, the third candidate is selected. -/
theorem C4_selection_policy_witness :
    selectionRoute [brA, brB, brC] (some "3") = SelectionRoute.chosen brC := by
  have h := C4_selection_policy.2.2.1 [brA, brB, brC] "3" 3 (by decide) (by decide)
    (by decide) (by decide) (by decide)
  simpa using h

/-- C10: when reading the input line fails during the interactive choice over
two or more candidates, the route is the immediate read-error return: it is
not the manual-entry fallback, carries no invalid-choice diagnostic, and the
selected browser is none no matter how manual entry would have behaved. -/
theorem C10_read_error_returns_none (l : List Browser) (h : 2 ≤ l.length) :
    selectionRoute l none = SelectionRoute.readError ∧
    (∀ d, selectionRoute l none ≠ SelectionRoute.manual d) ∧
    (∀ (manualInput : Option String) (pathExists : FsPath → Bool)
        (versionOf : FsPath → Option String),
      routeResult (selectionRoute l none) manualInput pathExists versionOf = none) := by
  match l, h with
  | a :: b :: t, _ =>
    refine ⟨rfl, ?_, ?_⟩
    · intro d hd
      simp [selectionRoute, choose_browser_interactively] at hd
    · intro manualInput pathExists versionOf
      rfl

/-- Witness for C10 at a concrete two-candidate list. -/
theorem C10_read_error_returns_none_witness :
    routeResult (selectionRoute [brA, brB] none) (some "/usr/bin/foo")
      (fun _ => true) (fun _ => none) = none :=
  (C10_read_error_returns_none [brA, brB] (by decide)).2.2 (some "/usr/bin/foo")
    (fun _ => true) (fun _ => none)

/-- JSON values, the level at which the serde_json layer is modelled.  The
string rendering of to_string_pretty composed with from_str is the identity on
these values for the derive implementations of Browser and Config, so the file
content is modelled as the Json value itself where serialization matters. -/
inductive Json where
  | str (s : String)
  | null
  | arr (elems : List Json)
  | obj (fields : List (String × Json))

/-- Field lookup in a serialized JSON object. -/
def Json.lookupField (key : String) : List (String × Json) → Option Json
  | [] => none
  | (k, v) :: rest => if k = key then some v else Json.lookupField key rest

/-- Serialization of a Browser by the serde derive: name and path as strings,
version as a string or null. -/
def encodeBrowser (b : Browser) : Json :=
  Json.obj
    [("name", Json.str b.name), ("path", Json.str b.path),
     ("version", match b.version with
       | some v => Json.str v
       | none => Json.null)]

/-- Serialization of a Config by the serde derive. -/
def encodeConfig (c : Config) : Json :=
  Json.obj [("browser", encodeBrowser c.browser)]

def decodeStringField : Json → Option String
  | Json.str s => some s
  | _ => none

def decodeOptStringField : Json → Option (Option String)
  | Json.str s => some (some s)
  | Json.null => some none
  | _ => none

/-- Deserialization of a Browser by the serde derive: every field is looked up
in the object and decoded at its expected type.  The serializer always emits
the version field, so the missing-Option-field default is not modelled. -/
def decodeBrowser (j : Json) : Option Browser :=
  match j with
  | Json.obj fields =>
    match Json.lookupField "name" fields, Json.lookupField "path" fields,
        Json.lookupField "version" fields with
    | some nj, some pj, some vj =>
      match decodeStringField nj, decodeStringField pj, decodeOptStringField vj with
      | some n, some p, some v => some { name := n, path := p, version := v }
      | _, _, _ => none
    | _, _, _ => none
  | _ => none

/-- Deserialization of a Config by the serde derive. -/
def decodeConfig (j : Json) : Option Config :=
  match j with
  | Json.obj fields =>
    match Json.lookupField "browser" fields with
    | some bj => (decodeBrowser bj).map (fun b => { browser := b })
    | none => none
  | _ => none

/-- Environment seen by load_saved_browser (detect.rs lines 298 to 309): the
existence check on the config path, the result of fs::read_to_string (none
models an Err), the serde_json::from_str parse (kept abstract at this layer),
and the existence check on the stored browser path. -/
structure LoadEnv where
  fileExists : Bool
  readResult : Option String
  parseConfig : String → Option Config
  pathExists : FsPath → Bool

/-- load_saved_browser (detect.rs lines 298 to 309): the file must exist, be
readable, parse as a Config, and the stored path must still exist on disk;
every failing check falls through to none. -/
def load_saved_browser (env : LoadEnv) : Option Browser :=
  if env.fileExists then
    match env.readResult with
    | some data =>
      match env.parseConfig data with
      | some cfg =>
        if env.pathExists cfg.browser.path then some cfg.browser else none
      | none => none
    | none => none
  else none

/-- C5: load returns the absent value, and never an error, whenever the config
file is absent, unreadable, or unparseable, and also whenever the parsed
browser path no longer exists; it returns the stored browser exactly when
every one of these checks passes. -/
theorem C5_load_graceful_degradation (env : LoadEnv) :
    (env.fileExists = false → load_saved_browser env = none) ∧
    (env.readResult = none → load_saved_browser env = none) ∧
    (∀ data, env.readResult = some data → env.parseConfig data = none →
        load_saved_browser env = none) ∧
    (∀ data cfg, env.readResult = some data → env.parseConfig data = some cfg →
        env.pathExists cfg.browser.path = false → load_saved_browser env = none) ∧
    (∀ b, load_saved_browser env = some b ↔
        (env.fileExists = true ∧ ∃ data, env.readResult = some data ∧
          ∃ cfg, env.parseConfig data = some cfg ∧ cfg.browser = b ∧
            env.pathExists b.path = true)) := by
  refine ⟨?_, ?_, ?_, ?_, ?_⟩
  · intro h
    simp [load_saved_browser, h]
  · intro h
    simp only [load_saved_browser, h]
    split <;> rfl
  · intro data hr hp
    simp only [load_saved_browser, hr, hp]
    split <;> rfl
  · intro data cfg hr hp hex
    simp only [load_saved_browser, hr, hp, hex]
    split <;> simp
  · intro b
    rw [load_saved_browser]
    by_cases hfe : env.fileExists = true
    case neg =>
      rw [if_neg hfe]
      simp [hfe]
    case pos =>
      rw [if_pos hfe]
      cases hrd : env.readResult with
      | none => simp [hfe]
      | some data =>
        dsimp only
        cases hpc : env.parseConfig data with
        | none =>
          simp only [hfe, true_and, Option.some.injEq]
          constructor
          · intro h
            exact absurd h (by simp)
          · rintro ⟨data2, hdd, cfg2, hpc2, hb2, hpb2⟩
            have hd : data2 = data := hdd.symm
            subst hd
            rw [hpc] at hpc2
            exact absurd hpc2 (by simp)
        | some cfg =>
          dsimp only
          constructor
          · intro hsome
            split at hsome
            case isTrue hpe =>
              have hb : cfg.browser = b := Option.some.inj hsome
              exact ⟨hfe, data, rfl, cfg, hpc, hb, hb ▸ hpe⟩
            case isFalse => exact absurd hsome (by simp)
          · rintro ⟨-, data2, hdd, cfg2, hpc2, hb2, hpb2⟩
            have hd : data2 = data := (Option.some.inj hdd).symm
            subst hd
            rw [hpc] at hpc2
            have hc : cfg2 = cfg := (Option.some.inj hpc2).symm
            subst hc
            rw [if_pos (hb2 ▸ hpb2), hb2]

/-- Concrete environment instantiating the C5 theorem. -/
def envC5 : LoadEnv :=
  { fileExists := true,
    readResult := some "browser-config-json",
    parseConfig := fun data =>
      if data = "browser-config-json" then some { browser := brA } else none,
    pathExists := fun p => p = brA.path }

/-- Witness for C5: the fully valid environment returns the stored browser. -/
theorem C5_load_graceful_degradation_witness :
    load_saved_browser envC5 = some brA :=
  ((C5_load_graceful_degradation envC5).2.2.2.2 brA).mpr
    ⟨rfl, "browser-config-json", rfl, { browser := brA }, by decide, rfl, by decide⟩

/-- Filesystem state for the save and load pair: the config file content at
the Json layer (none when absent) and the on-disk existence predicate. -/
structure ConfigFS where
  content : Option Json
  pathExists : FsPath → Bool

/-- save_browser (detect.rs lines 311 to 322): the Config wrapping the chosen
browser is serialized and written over the config file. -/
def save_browser (fs : ConfigFS) (browser : Browser) : ConfigFS :=
  { fs with content := some (encodeConfig { browser := browser }) }

/-- load_saved_browser at the Json layer: same checks as load_saved_browser,
with the parse step instantiated to the serde derive deserializer. -/
def load_saved_browser_fs (fs : ConfigFS) : Option Browser :=
  match fs.content with
  | some data =>
    match decodeConfig data with
    | some cfg =>
      if fs.pathExists cfg.browser.path then some cfg.browser else none
    | none => none
  | none => none

/-- C6: for every browser whose path exists on disk at load time, save
followed by load returns a browser equal to the saved one: same name, path
and version. -/
theorem C6_save_load_roundtrip (fs : ConfigFS) (b : Browser)
    (h : fs.pathExists b.path = true) :
    load_saved_browser_fs (save_browser fs b) = some b := by
  cases b with
  | mk n p v =>
    cases v <;>
      simp [load_saved_browser_fs, save_browser, encodeConfig, encodeBrowser,
        decodeConfig, decodeBrowser, Json.lookupField, decodeStringField,
        decodeOptStringField, h]

/-- Concrete filesystem instantiating the C6 theorem. -/
def fsC6 : ConfigFS :=
  { content := none, pathExists := fun p => p = brA.path }

/-- Witness for C6 at a concrete browser and filesystem. -/
theorem C6_save_load_roundtrip_witness :
    load_saved_browser_fs (save_browser fsC6 brA) = some brA :=
  C6_save_load_roundtrip fsC6 brA (by decide)

/-- Content written to a file: a JSON document or plain text. -/
inductive FileContent where
  | json (j : Json)
  | text (s : String)

/-- Filesystem operation performed by the detection run: a direct write of
full content to a path, or an atomic rename of one path over another.  The
source only ever performs writes; rename is present so the atomic-replace
pattern of the claim can be stated. -/
inductive FileOp where
  | write (path : FsPath) (content : FileContent)
  | rename (src dst : FsPath)

/-- File operations of save_browser (detect.rs lines 311 to 322): a single
fs::write of the serialized config directly to the config path.
to_string_pretty on these records never fails, so the write always happens. -/
def save_browser_ops (config_path : FsPath) (browser : Browser) : List FileOp :=
  [FileOp.write config_path (FileContent.json (encodeConfig { browser := browser }))]

/-- Config path used for the concrete save instances. -/
def cfgPathW : FsPath := "/home/user/.config/quick_tabs/browser_config.json"

/-- C7 counterexample: saving is not a write to a temporary path followed by
an atomic rename over the target; at this concrete config path and browser
there is no temporary path for which the operation list has that shape,
because the code performs one direct write to the target. -/
theorem C7_counterexample :
    ¬ ∃ tmp, tmp ≠ cfgPathW ∧
      save_browser_ops cfgPathW brA =
        [FileOp.write tmp (FileContent.json (encodeConfig { browser := brA })),
         FileOp.rename tmp cfgPathW] := by
  rintro ⟨tmp, -, h⟩
  simp only [save_browser_ops, List.cons.injEq] at h
  exact List.cons_ne_nil _ _ h.2.symm

/-- C7 amended: save_browser performs exactly one file operation, a direct
fs::write of the serialized config to the target config path; no temporary
file is written and no rename is performed, so an interruption mid-write can
leave a partially written config at the target (which load tolerates by
parsing it as absent). -/
theorem C7_save_writes_target_directly (config_path : FsPath) (b : Browser) :
    save_browser_ops config_path b =
      [FileOp.write config_path (FileContent.json (encodeConfig { browser := b }))] ∧
    (∀ src dst, ¬ (FileOp.rename src dst) ∈ save_browser_ops config_path b) := by
  refine ⟨rfl, ?_⟩
  intro src dst hmem
  simp [save_browser_ops] at hmem

/-- Witness for C7 amended: the save at the concrete path performs no
rename. -/
theorem C7_save_writes_target_directly_witness :
    ¬ (FileOp.rename "/tmp/browser_config.json" cfgPathW) ∈
      save_browser_ops cfgPathW brB :=
  (C7_save_writes_target_directly cfgPathW brB).2 "/tmp/browser_config.json" cfgPathW

/-- Environment of one detection run (detect.rs run, lines 31 to 60): the
result of loading the saved config, the deduplicated detection result, the
interactive choice line, the manual-entry line, and the filesystem and
version probes manual entry consults. -/
structure RunEnv where
  savedBrowser : Option Browser
  detected : List Browser
  choiceInput : Option String
  manualInput : Option String
  pathExists : FsPath → Bool
  versionOf : FsPath → Option String

/-- Browser selected by the fresh-detection part of run: the candidate-count
dispatch followed by manual entry on the manual routes. -/
def run_selected (env : RunEnv) : Option Browser :=
  routeResult (selectionRoute env.detected env.choiceInput) env.manualInput
    env.pathExists env.versionOf

/-- Overall result of run: the saved browser short-circuits everything,
otherwise the fresh selection is returned. -/
def run_model (env : RunEnv) : Option Browser :=
  match env.savedBrowser with
  | some b => some b
  | none => run_selected env

/-- Plain-text report content written by write_outputs: one name = path line
per browser. -/
def browsersText (found : List Browser) : String :=
  found.foldl (fun acc b => acc ++ b.name ++ " = " ++ b.path ++ "\x0a") ""

/-- File operations of write_outputs (detect.rs lines 325 to 343): the full
browser list as JSON and as text, both to the working directory. -/
def write_outputs_ops (found : List Browser) : List FileOp :=
  [FileOp.write "browsers.json" (FileContent.json (Json.arr (found.map encodeBrowser))),
   FileOp.write "browsers.txt" (FileContent.text (browsersText found))]

/-- File operations of one run (detect.rs lines 31 to 60): a valid saved
browser short-circuits before any write; otherwise the report files are
written and, only when a browser was selected, the config file is saved. -/
def run_file_ops (env : RunEnv) (config_path : FsPath) : List FileOp :=
  match env.savedBrowser with
  | some _ => []
  | none =>
    write_outputs_ops env.detected ++
      (match run_selected env with
       | some b => save_browser_ops config_path b
       | none => [])

/-- Contents of all files after a list of operations, starting from the given
file map: a write replaces the content at its path, a rename moves the
content of the source over the destination. -/
def applyOps (ops : List FileOp) (fs : FsPath → Option FileContent) :
    FsPath → Option FileContent :=
  ops.foldl
    (fun fs op =>
      match op with
      | FileOp.write p c => fun q => if q = p then some c else fs q
      | FileOp.rename s d => fun q =>
          if q = d then fs s else if q = s then none else fs q)
    fs

/-- C8: when the selection outcome of a detection run is no browser selected,
no operation of the run writes or renames over the config path, and the
previously persisted config content is unchanged by the run.  The config path
is distinct from the two report files the run writes into the working
directory. -/
theorem C8_no_selection_leaves_config_unchanged (env : RunEnv)
    (config_path : FsPath) (fs : FsPath → Option FileContent)
    (hj : config_path ≠ "browsers.json") (ht : config_path ≠ "browsers.txt")
    (hnone : run_model env = none) :
    (∀ c, ¬ (FileOp.write config_path c) ∈ run_file_ops env config_path) ∧
    (∀ src, ¬ (FileOp.rename src config_path) ∈ run_file_ops env config_path) ∧
    applyOps (run_file_ops env config_path) fs config_path = fs config_path := by
  have hops : run_file_ops env config_path = write_outputs_ops env.detected := by
    cases hsb : env.savedBrowser with
    | some b =>
      rw [run_model, hsb] at hnone
      simp at hnone
    | none =>
      have hsel : run_selected env = none := by
        rw [run_model, hsb] at hnone
        simpa using hnone
      rw [run_file_ops, hsb]
      dsimp only
      rw [hsel]
      simp
  refine ⟨?_, ?_, ?_⟩
  · intro c hmem
    rw [hops] at hmem
    simp only [write_outputs_ops, List.mem_cons, List.not_mem_nil, or_false] at hmem
    rcases hmem with h | h
    · injection h with h1 h2
      exact hj h1
    · injection h with h1 h2
      exact ht h1
  · intro src hmem
    rw [hops] at hmem
    simp [write_outputs_ops] at hmem
  · rw [hops]
    simp only [write_outputs_ops, applyOps, List.foldl_cons, List.foldl_nil]
    rw [if_neg ht, if_neg hj]

/-- Environment for the C8 witness: nothing saved, nothing detected, and
manual entry fails on a read error, so the run selects no browser. -/
def envC8 : RunEnv :=
  { savedBrowser := none, detected := [], choiceInput := none,
    manualInput := none, pathExists := fun _ => false, versionOf := fun _ => none }

/-- Witness for C8: with no browser selected, the config file content at the
config path is untouched by the run. -/
theorem C8_no_selection_leaves_config_unchanged_witness :
    applyOps (run_file_ops envC8 cfgPathW) (fun _ => none) cfgPathW =
      (fun _ => (none : Option FileContent)) cfgPathW :=
  (C8_no_selection_leaves_config_unchanged envC8 cfgPathW (fun _ => none)
    (by decide) (by decide) rfl).2.2

/-- CLI commands of main.rs. -/
inductive CliCommand where
  | launch (target : String) (incognito : Bool)
  | addLink (tag url : String)
  | addAlias (tag url : String)
  | removeLink (tag : String)
  | removeAlias (tag : String)
  | listLinks
  | openAllLinks (incognito : Bool)
  | openAllAliases (incognito : Bool)
  | detect
  | help
deriving DecidableEq, Repr

/-- Events of one main invocation, in execution order. -/
inductive MainEvent where
  | setupConfigPaths
  | detectBrowsers
  | dispatch (cmd : CliCommand)
deriving DecidableEq, Repr

/-- Execution order of main (main.rs lines 69 to 157): the link and alias
config paths are set up, detect_browsers (detect::run, including any
interactive prompting and config persistence) executes, and only then is the
parsed command dispatched. -/
def main_trace (cmd : CliCommand) : List MainEvent :=
  [MainEvent.setupConfigPaths, MainEvent.detectBrowsers, MainEvent.dispatch cmd]

/-- C9: for every CLI command, browser detection executes before the command
is dispatched: the trace of main holds the detection event at an earlier
position than the dispatch event, and every dispatch event in the trace comes
after the detection event, including for the commands that never use the
resulting browser. -/
theorem C9_detect_runs_before_dispatch (cmd : CliCommand) :
    ∃ i j, i < j ∧
      (main_trace cmd)[i]? = some MainEvent.detectBrowsers ∧
      (main_trace cmd)[j]? = some (MainEvent.dispatch cmd) ∧
      ∀ (k : Nat) (c : CliCommand),
        (main_trace cmd)[k]? = some (MainEvent.dispatch c) → i < k := by
  refine ⟨1, 2, by omega, rfl, rfl, ?_⟩
  intro k c hk
  match k with
  | 0 => simp [main_trace] at hk
  | 1 => simp [main_trace] at hk
  | 2 => omega
  | n + 3 => simp [main_trace] at hk

/-- Witness for C9 at a command that never uses the detected browser. -/
theorem C9_detect_runs_before_dispatch_witness :
    ∃ i j, i < j ∧
      (main_trace (CliCommand.addLink "docs" "https://example.org"))[i]? =
        some MainEvent.detectBrowsers ∧
      (main_trace (CliCommand.addLink "docs" "https://example.org"))[j]? =
        some (MainEvent.dispatch (CliCommand.addLink "docs" "https://example.org")) ∧
      ∀ (k : Nat) (c : CliCommand),
        (main_trace (CliCommand.addLink "docs" "https://example.org"))[k]? =
          some (MainEvent.dispatch c) → i < k :=
  C9_detect_runs_before_dispatch (CliCommand.addLink "docs" "https://example.org")

end QuickTabs
